import Mathlib

/-! Shallow embedding of the census query/aggregation engine defined in
`job-satisfaction/data_model.py` (classes `WageTuple`, `InputRecord`, `Query`,
`Dataset`, and the loader functions `parse_wage_otc`, `parse_record`,
`load_from_file`), together with proofs of its specification's claims.

Modelling conventions:

* Python floats are modelled as rationals (`Rat`); every aggregate in the
  source is built from sums, products, divisions and comparisons of the
  parsed decimal inputs.
* A raised Python exception is modelled as `Except.error msg` carrying the
  exception's message, so that distinct failure modes stay distinguishable
  (`RuntimeError`, `TypeError` from `functools.reduce`, `ZeroDivisionError`,
  `ValueError` from `max()` and from `float()`/`int()`).
* A Python `dict` is modelled by `pyDict`: an association list with
  first-insertion key order and last-write-wins values, which is exactly the
  observable behaviour of `dict` construction in the source
  (`Dataset.__init__` line 401).
* A Python `set` (the inverted-index entries and the accumulating id set of
  `_get_subpopulation`) is modelled as a `Finset`.  Python's set iteration
  order is unspecified; where the source iterates over a set
  (`map(lambda x: self._records_by_id[x], ret_index)`, line 666) we fix the
  dictionary's insertion order.  Every theorem below depends only on
  order-independent observables (sums, maxima, sortedness, membership), so
  this choice is immaterial.
* `wages.sort(key=lambda x: x.get_wage())` (a stable ascending sort by wage,
  line 456) is modelled by `List.insertionSort` on the wage component, which
  is also a stable ascending sort.
* Categorical values are either strings or (for the `female` dimension)
  booleans; they are wrapped in the sum type `Val`, ordered so that strings
  compare lexicographically and `false < true`, matching Python's `sorted`
  on each homogeneous key set.
-/

/-- Embeds class `WageTuple` (data_model.py lines 11-39): a wage observation
with its census sampling weight. -/
structure WageTuple where
  wage : Rat
  weight : Rat
  deriving DecidableEq

/-- Embeds class `InputRecord` (data_model.py lines 42-188): one parsed row
of the income dataset. -/
structure InputRecord where
  index : Int
  educ : String
  docc03 : String
  wageotc : List WageTuple
  unemp : Rat
  wage_count : Rat
  unemp_count : Rat
  wbhaom : String
  female : Bool
  region : String
  age : String
  hoursuint : String
  citistat : String
  deriving DecidableEq

/-- A categorical value: a string for seven of the dimensions, a boolean for
the `female` dimension. -/
inductive Val where
  | vb : Bool → Val
  | vs : String → Val
  deriving DecidableEq

/-- Order-respecting injection of `Val` into `Bool ⊕ₗ String`, used to endow
`Val` with the linear order Python's `sorted` uses on each homogeneous key
set: booleans with `false < true`, strings lexicographically. -/
def Val.toSum : Val → Bool ⊕ₗ String
  | .vb b => toLex (Sum.inl b)
  | .vs s => toLex (Sum.inr s)

instance : LinearOrder Val :=
  LinearOrder.lift' Val.toSum (by
    intro a b h
    have h2 := congrArg ofLex h
    cases a <;> cases b <;> simp [Val.toSum] at h2 <;> simp [h2])

/-- Python's `str()` of a categorical value, as used in the error message
of `_get_subpopulation` (data_model.py line 617). -/
def Val.pyStr : Val → String
  | .vb true => "True"
  | .vb false => "False"
  | .vs s => s

/-- The eight categorical dimensions of the dataset. -/
inductive Dimension where
  | educ | docc03 | wbhaom | female | region | age | hoursuint | citistat
  deriving DecidableEq

/-- The value a record carries on a given dimension (the per-dimension
getters `get_educ` .. `get_citistat` of `InputRecord`). -/
def InputRecord.dimVal (r : InputRecord) : Dimension → Val
  | .educ => .vs r.educ
  | .docc03 => .vs r.docc03
  | .wbhaom => .vs r.wbhaom
  | .female => .vb r.female
  | .region => .vs r.region
  | .age => .vs r.age
  | .hoursuint => .vs r.hoursuint
  | .citistat => .vs r.citistat

/-- Embeds class `Query` (data_model.py lines 191-388): one optional filter
value per categorical dimension, all initially `None`. -/
structure Query where
  educ : Option String := none
  docc03 : Option String := none
  wbhaom : Option String := none
  female : Option Bool := none
  region : Option String := none
  age : Option String := none
  hoursuint : Option String := none
  citistat : Option String := none
  deriving DecidableEq

/-- A freshly constructed `Query()` with no filters applied. -/
def Query.empty : Query := {}

/-- The constraint a query places on a given dimension (the getters
`get_educ` .. `get_citistat` of `Query`). -/
def Query.dimVal (q : Query) : Dimension → Option Val
  | .educ => q.educ.map Val.vs
  | .docc03 => q.docc03.map Val.vs
  | .wbhaom => q.wbhaom.map Val.vs
  | .female => q.female.map Val.vb
  | .region => q.region.map Val.vs
  | .age => q.age.map Val.vs
  | .hoursuint => q.hoursuint.map Val.vs
  | .citistat => q.citistat.map Val.vs

/-- A query that fixes a single dimension to a given value and leaves every
other dimension unset (the query family of the partition property).  A
value whose shape does not fit the dimension leaves the query unconstrained;
such pairs never arise from `getVals`. -/
def Query.single : Dimension → Val → Query
  | .educ, .vs s => { educ := some s }
  | .docc03, .vs s => { docc03 := some s }
  | .wbhaom, .vs s => { wbhaom := some s }
  | .female, .vb b => { female := some b }
  | .region, .vs s => { region := some s }
  | .age, .vs s => { age := some s }
  | .hoursuint, .vs s => { hoursuint := some s }
  | .citistat, .vs s => { citistat := some s }
  | _, _ => {}

/-- One insertion into a Python `dict` held as an association list: if the
key is present its value is overwritten in place, otherwise the pair is
appended. -/
def pyDictInsert {κ ν : Type} [DecidableEq κ] (acc : List (κ × ν)) (kv : κ × ν) :
    List (κ × ν) :=
  if acc.any (fun p => decide (p.1 = kv.1)) then
    acc.map (fun p => if p.1 = kv.1 then (p.1, kv.2) else p)
  else
    acc ++ [kv]

/-- A Python `dict` built from a stream of key/value pairs: keys in
first-insertion order, each key mapped to the last value written for it. -/
def pyDict {κ ν : Type} [DecidableEq κ] (l : List (κ × ν)) : List (κ × ν) :=
  l.foldl pyDictInsert []

/-- Embeds class `Dataset` (data_model.py lines 391-689).  The constructor
stores `_records_by_id` and the eight inverted indexes; all of those are
functions of the record list, so the structure holds the list and the
accessors below derive the rest exactly as `__init__` builds them. -/
structure Dataset where
  records : List InputRecord
  deriving DecidableEq

/-- `self._records_by_id` (data_model.py line 401): a dict from record id to
record. -/
def Dataset.recordsById (ds : Dataset) : List (Int × InputRecord) :=
  pyDict (ds.records.map (fun r => (r.index, r)))

/-- `set(self._records_by_id.keys())` (data_model.py line 624). -/
def Dataset.allIds (ds : Dataset) : Finset Int :=
  (ds.recordsById.map (fun p => p.1)).toFinset

/-- The id set a dimension's inverted index (`_make_index`, data_model.py
lines 668-689) associates to a value: all ids of input records carrying that
value. -/
def Dataset.indexIds (ds : Dataset) (dim : Dimension) (v : Val) : Finset Int :=
  ((ds.records.filter (fun r => decide (r.dimVal dim = v))).map
    (fun r => r.index)).toFinset

/-- The key set of a dimension's inverted index: every value observed for
that dimension across the input records. -/
def Dataset.indexKeys (ds : Dataset) (dim : Dimension) : Finset Val :=
  (ds.records.map (fun r => r.dimVal dim)).toFinset

/-- Embeds the inner function `filter_value` of `_get_subpopulation`
(data_model.py lines 612-622): an unset dimension passes the id accumulator
through; a set dimension either raises `RuntimeError` naming the value (when
the value is not an index key) or intersects the accumulator with the
index entry. -/
def Dataset.filterDim (ds : Dataset) (q : Query) (acc : Finset Int)
    (dim : Dimension) : Except String (Finset Int) :=
  match q.dimVal dim with
  | none => Except.ok acc
  | some v =>
    if v ∈ ds.indexKeys dim then Except.ok (ds.indexIds dim v ∩ acc)
    else Except.error ("Cannot find the provided value: " ++ v.pyStr)

/-- The order in which `_get_subpopulation` applies the eight dimension
filters (data_model.py lines 625-664). -/
def dimOrder : List Dimension :=
  [.educ, .docc03, .wbhaom, .female, .region, .age, .hoursuint, .citistat]

/-- The id-set part of `_get_subpopulation`: starting from the full id set,
fold the eight `filter_value` applications in source order. -/
def Dataset.subpopulationIds (ds : Dataset) (q : Query) : Except String (Finset Int) :=
  dimOrder.foldlM (ds.filterDim q) ds.allIds

/-- `_get_subpopulation` (data_model.py lines 595-666): the filtered id set
mapped through `_records_by_id`.  The source iterates the id set in Python's
unspecified set order; here the dictionary's insertion order stands in for
it (see the module comment). -/
def Dataset.get_subpopulation (ds : Dataset) (q : Query) :
    Except String (List InputRecord) :=
  (ds.subpopulationIds q).map (fun ids =>
    ds.recordsById.filterMap (fun p => if p.1 ∈ ids then some p.2 else none))

/-- The flattened pool of wage observations of a subpopulation
(`get_wageotc` lines 449-451: `itertools.chain(*wages_nested)`). -/
def Dataset.wagePool (ds : Dataset) (q : Query) : Except String (List WageTuple) :=
  (ds.get_subpopulation q).map (fun subpop =>
    (subpop.map (fun r => r.wageotc)).flatten)

/-- `wages.sort(key=lambda x: x.get_wage())` (data_model.py line 456):
stable ascending sort of the pool by wage. -/
def sortWages (l : List WageTuple) : List WageTuple :=
  l.insertionSort (fun a b => a.wage ≤ b.wage)

/-- The accumulation loop of `get_wageotc` (data_model.py lines 457-464):
walk the sorted pool, return the first wage whose running weight total
reaches `mid`, or `none` when the loop falls through. -/
def medianLoop (mid : Rat) : List WageTuple → Rat → Option Rat
  | [], _ => none
  | w :: rest, acc =>
    if mid ≤ acc + w.weight then some w.wage
    else medianLoop mid rest (acc + w.weight)

/-- `Dataset.get_wageotc` (data_model.py lines 438-466): the weighted median
wage of the queried subpopulation, raising `RuntimeError` when the loop
falls through. -/
def Dataset.get_wageotc (ds : Dataset) (q : Query) : Except String Rat :=
  (ds.wagePool q).bind (fun wages =>
    let total_count := (wages.map (fun w => w.weight)).sum
    let mid_count := total_count / 2
    match medianLoop mid_count (sortWages wages) 0 with
    | some w => Except.ok w
    | none => Except.error ("Unable to get median wage."))

/-- Message of the `TypeError` that `functools.reduce` raises on an empty
sequence without an initial value (`get_unemp`, data_model.py line 485). -/
def reduceEmptyMsg : String := "reduce() of empty iterable with no initial value"

/-- Message of the `ZeroDivisionError` Python raises on float division by
zero (`get_unemp`, data_model.py line 489). -/
def divZeroMsg : String := "float division by zero"

/-- The tail of `get_unemp` (data_model.py lines 485-489):
`functools.reduce` of pairwise addition over the weighted tuples --- which
raises `TypeError` on an empty sequence because no initial value is given ---
followed by the division, which raises `ZeroDivisionError` when the reduced
weight is zero. -/
def reduceMean : List (Rat × Rat) → Except String Rat
  | [] => Except.error reduceEmptyMsg
  | t :: rest =>
    let reduced := rest.foldl (fun a b => (a.1 + b.1, a.2 + b.2)) t
    if reduced.1 = 0 then Except.error divZeroMsg
    else Except.ok (reduced.2 / reduced.1)

/-- `Dataset.get_unemp` (data_model.py lines 468-489): the
unemployment-weight-weighted mean unemployment rate of the subpopulation. -/
def Dataset.get_unemp (ds : Dataset) (q : Query) : Except String Rat :=
  (ds.get_subpopulation q).bind (fun subpop =>
    let unemp_tuples := subpop.map (fun r => (r.unemp_count, r.unemp))
    let weighted := unemp_tuples.map (fun x => (x.1, x.1 * x.2))
    reduceMean weighted)

/-- `Dataset.get_size` (data_model.py lines 491-506): summed wage weight of
the queried subpopulation. -/
def Dataset.get_size (ds : Dataset) (q : Query) : Except String Rat :=
  (ds.get_subpopulation q).map (fun subpop =>
    (subpop.map (fun r => r.wage_count)).sum)

/-- `self._records_by_id.values()` (data_model.py lines 514 and 527). -/
def Dataset.valuesById (ds : Dataset) : List InputRecord :=
  ds.recordsById.map (fun p => p.2)

/-- Python's `max()` over an iterable of floats: `ValueError` on an empty
sequence, otherwise the running maximum. -/
def listMax : List Rat → Except String Rat
  | [] => Except.error ("max() arg is an empty sequence")
  | x :: xs => Except.ok (xs.foldl max x)

/-- `Dataset.get_max_wage` (data_model.py lines 508-518): maximum wage over
the flattened wage observations of all stored records, ignoring any query. -/
def Dataset.get_max_wage (ds : Dataset) : Except String Rat :=
  listMax (((ds.valuesById.map (fun r => r.wageotc)).flatten).map (fun w => w.wage))

/-- `Dataset.get_max_unemployment` (data_model.py lines 520-529): maximum
unemployment rate over all stored records, ignoring any query. -/
def Dataset.get_max_unemployment (ds : Dataset) : Except String Rat :=
  listMax (ds.valuesById.map (fun r => r.unemp))

/-- The per-dimension value enumeration `get_educ_vals` .. `get_citistat_vals`
(data_model.py lines 531-593), uniformly over the dimension enum: each method
returns `sorted(index.keys())`. -/
def Dataset.getVals (ds : Dataset) (dim : Dimension) : List Val :=
  (ds.indexKeys dim).sort (· ≤ ·)

/-- One raw CSV row, with each cell already classified by whether Python's
`int()`/`float()` would accept it: `none` models a cell whose text does not
parse as a number, and a `none` entry in `wageotc` models a malformed
`"<wage> <weight>"` pair.  String-typed cells always parse (`str()` of a CSV
cell never fails). -/
structure RawRow where
  index : Option Int
  educ : String
  docc03 : String
  wageotc : List (Option (Rat × Rat))
  unemp : Option Rat
  wageCount : Option Rat
  unempCount : Option Rat
  wbhaom : String
  female : String
  region : String
  age : String
  hoursuint : String
  citistat : String
  deriving DecidableEq

/-- Message of the `ValueError` raised by `int()` on a malformed literal. -/
def intMsg : String := "invalid literal for int() with base 10"

/-- Message of the `ValueError` raised by `float()` on a malformed literal. -/
def floatMsg : String := "could not convert string to float"

/-- Conversion of one raw cell: raise `ValueError` when the text does not
parse, otherwise return the parsed value. -/
def parseField {α : Type} (msg : String) : Option α → Except String α
  | none => Except.error msg
  | some v => Except.ok v

/-- `parse_wage_otc` (data_model.py lines 692-696): every pair of the
semicolon-separated cell must convert to a pair of floats. -/
def parse_wage_otc (cell : List (Option (Rat × Rat))) : Except String (List WageTuple) :=
  (cell.mapM (parseField floatMsg)).map (fun l =>
    l.map (fun x => { wage := x.1, weight := x.2 }))

/-- `parse_record` (data_model.py lines 699-728).  The numeric fields are
converted eagerly in source order (`index`, then `unemp`, `wageCount`,
`unempCount`); the lazy `map` produced by `parse_wage_otc` is forced by
`list(wageotc)` inside `InputRecord.__init__` (line 69), i.e. after the
scalar conversions, which is where a malformed wage pair raises. -/
def parse_record (row : RawRow) : Except String InputRecord :=
  match row.index with
  | none => Except.error intMsg
  | some index =>
    match row.unemp with
    | none => Except.error floatMsg
    | some unemp =>
      match row.wageCount with
      | none => Except.error floatMsg
      | some wage_count =>
        match row.unempCount with
        | none => Except.error floatMsg
        | some unemp_count =>
          match parse_wage_otc row.wageotc with
          | Except.error e => Except.error e
          | Except.ok wageotc =>
            Except.ok {
              index := index
              educ := row.educ
              docc03 := row.docc03
              wageotc := wageotc
              unemp := unemp
              wage_count := wage_count
              unemp_count := unemp_count
              wbhaom := row.wbhaom
              female := decide (row.female = "Female")
              region := row.region
              age := row.age
              hoursuint := row.hoursuint
              citistat := row.citistat }

/-- `load_from_file` (data_model.py lines 731-751) on an in-memory row
stream: `map(parse_record, records)` is forced by `list(...)` inside
`Dataset.__init__`, so the rows are parsed left to right and the first
failure propagates before any `Dataset` is produced. -/
def load_from_file (rows : List RawRow) : Except String Dataset :=
  (rows.mapM parse_record).map Dataset.mk

/-- Cumulative weight of the first `n` observations of a wage pool (the
running `weight_acc` of the median loop after `n` iterations). -/
def prefixWeight (l : List WageTuple) (n : Nat) : Rat :=
  ((l.take n).map (fun w => w.weight)).sum

/-- Whether the query's constraint on a dimension names a value absent from
that dimension's inverted index (the condition of the `raise` inside
`filter_value`, data_model.py line 616). -/
def Dataset.offendingDim (ds : Dataset) (q : Query) (dim : Dimension) : Bool :=
  match q.dimVal dim with
  | none => false
  | some v => !decide (v ∈ ds.indexKeys dim)

/-- Boolean form of "q2 constrains every dimension q1 constrains, to the
same value" (q2 is a field-wise superset of q1's constraints). -/
def queryLEB (q1 q2 : Query) : Bool :=
  dimOrder.all (fun dim =>
    match q1.dimVal dim with
    | none => true
    | some v => decide (q2.dimVal dim = some v))

/-- Boolean form of "every constrained value of the query appears in the
corresponding dimension's inverted index". -/
def Dataset.queryValidB (ds : Dataset) (q : Query) : Bool :=
  dimOrder.all (fun dim => !ds.offendingDim q dim)

/-- First record of the spec's concrete three-record scenario. -/
def rA : InputRecord :=
  { index := 1, educ := "college", docc03 := "occ", wageotc := [⟨10, 5⟩, ⟨20, 5⟩],
    unemp := 5, wage_count := 10, unemp_count := 10, wbhaom := "White",
    female := false, region := "west", age := "25-35 yr",
    hoursuint := "at least 35 hours", citistat := "citizen" }

/-- Second record of the spec's concrete three-record scenario. -/
def rB : InputRecord :=
  { index := 2, educ := "college", docc03 := "occ", wageotc := [⟨12, 5⟩, ⟨22, 5⟩],
    unemp := 8, wage_count := 10, unemp_count := 10, wbhaom := "White",
    female := true, region := "west", age := "25-35 yr",
    hoursuint := "at least 35 hours", citistat := "citizen" }

/-- Third record of the spec's concrete three-record scenario. -/
def rC : InputRecord :=
  { index := 3, educ := "high school", docc03 := "occ", wageotc := [⟨8, 10⟩],
    unemp := 10, wage_count := 10, unemp_count := 10, wbhaom := "White",
    female := false, region := "west", age := "25-35 yr",
    hoursuint := "at least 35 hours", citistat := "citizen" }

/-- The spec's concrete three-record dataset. -/
def dsABC : Dataset := ⟨[rA, rB, rC]⟩

/-- The query constraining only education to `college`. -/
def qCollege : Query := { educ := some "college" }

/-- A query whose constrained values are both present in the indexes but
whose intersection is empty on `dsABC` (no high-school female record). -/
def qHsFem : Query := { educ := some "high school", female := some true }

/-- A query naming a value absent from the education index of `dsABC`. -/
def qPhD : Query := { educ := some "PhD" }

/-- The empty dataset (zero records). -/
def ds0 : Dataset := ⟨[]⟩

/-- A record whose single wage observation has weight zero. -/
def rZ : InputRecord :=
  { index := 1, educ := "college", docc03 := "occ", wageotc := [⟨5, 0⟩],
    unemp := 5, wage_count := 0, unemp_count := 0, wbhaom := "White",
    female := false, region := "west", age := "25-35 yr",
    hoursuint := "at least 35 hours", citistat := "citizen" }

/-- A one-record dataset whose whole wage pool has total weight zero. -/
def dsZ : Dataset := ⟨[rZ]⟩

/-- A record with an empty wage-observation list. -/
def rNW : InputRecord :=
  { index := 1, educ := "college", docc03 := "occ", wageotc := [],
    unemp := 5, wage_count := 0, unemp_count := 0, wbhaom := "White",
    female := false, region := "west", age := "25-35 yr",
    hoursuint := "at least 35 hours", citistat := "citizen" }

/-- A dataset with one record and no wage observations at all. -/
def dsNW : Dataset := ⟨[rNW]⟩

/-- A raw row whose `unemp` cell does not parse as a float. -/
def badRow : RawRow :=
  { index := some 7, educ := "college", docc03 := "occ",
    wageotc := [some (10, 5)], unemp := none, wageCount := some 10,
    unempCount := some 10, wbhaom := "White", female := "Female",
    region := "west", age := "25-35 yr", hoursuint := "at least 35 hours",
    citistat := "citizen" }

theorem foldl_pyDictInsert_nodup {κ ν : Type} [DecidableEq κ] :
    ∀ (l acc : List (κ × ν)), ((acc ++ l).map Prod.fst).Nodup →
      l.foldl pyDictInsert acc = acc ++ l := by
  intro l
  induction l with
  | nil => intro acc _; simp
  | cons kv rest ih =>
    intro acc h
    have hmap : ((acc.map Prod.fst) ++ kv.1 :: (rest.map Prod.fst)).Nodup := by
      simpa using h
    have hnotin : kv.1 ∉ acc.map Prod.fst := by
      rcases List.nodup_append.mp hmap with ⟨-, -, hdisj⟩
      intro hc
      exact hdisj hc (by simp)
    have hany : acc.any (fun p => decide (p.1 = kv.1)) = false := by
      rw [Bool.eq_false_iff]
      intro hc
      rcases List.any_eq_true.mp hc with ⟨p, hp, hpd⟩
      exact hnotin (of_decide_eq_true hpd ▸ List.mem_map_of_mem Prod.fst hp)
    have hstep : pyDictInsert acc kv = acc ++ [kv] := by
      simp [pyDictInsert, hany]
    rw [List.foldl_cons, hstep, ih (acc ++ [kv]) (by simpa using h)]
    simp

theorem pyDict_of_nodup {κ ν : Type} [DecidableEq κ] (l : List (κ × ν))
    (h : (l.map Prod.fst).Nodup) : pyDict l = l := by
  simpa using foldl_pyDictInsert_nodup l [] (by simpa using h)

theorem foldl_pyDictInsert_ne_nil {κ ν : Type} [DecidableEq κ] :
    ∀ (l acc : List (κ × ν)), acc ≠ [] → l.foldl pyDictInsert acc ≠ [] := by
  intro l
  induction l with
  | nil => intro acc h; simpa using h
  | cons kv rest ih =>
    intro acc hacc
    rw [List.foldl_cons]
    apply ih
    unfold pyDictInsert
    split
    · simpa using hacc
    · simp

theorem pyDict_ne_nil {κ ν : Type} [DecidableEq κ] (l : List (κ × ν))
    (h : l ≠ []) : pyDict l ≠ [] := by
  cases l with
  | nil => exact absurd rfl h
  | cons kv rest =>
    unfold pyDict
    rw [List.foldl_cons]
    apply foldl_pyDictInsert_ne_nil
    simp [pyDictInsert]

theorem filterMap_ite_mem {α : Type} (p : α → Prop) [DecidablePred p] :
    ∀ l : List α, (l.filterMap (fun a => if p a then some a else none)) =
      l.filter (fun a => decide (p a)) := by
  intro l
  induction l with
  | nil => rfl
  | cons a rest ih =>
    by_cases h : p a <;> simp [List.filterMap_cons, List.filter_cons, h, ih]

theorem foldl_max_spec : ∀ (xs : List Rat) (x : Rat),
    (xs.foldl max x) ∈ x :: xs ∧ ∀ y ∈ x :: xs, y ≤ xs.foldl max x := by
  intro xs
  induction xs with
  | nil =>
    intro x
    refine ⟨by simp, ?_⟩
    intro y hy
    simp at hy
    simp [hy]
  | cons z zs ih =>
    intro x
    have h := ih (max x z)
    constructor
    · rw [List.foldl_cons]
      rcases List.mem_cons.mp h.1 with h1 | h1
      · rcases max_choice x z with hc | hc <;> rw [h1, hc] <;> simp
      · simp [h1]
    · intro y hy
      rw [List.foldl_cons]
      rcases List.mem_cons.mp hy with rfl | h1
      · exact le_trans (le_max_left y z) (h.2 (max y z) (List.mem_cons_self _ _))
      · rcases List.mem_cons.mp h1 with rfl | h2
        · exact le_trans (le_max_right x y) (h.2 (max x y) (List.mem_cons_self _ _))
        · exact h.2 y (by simp [h2])

theorem foldl_pair_add : ∀ (l : List (Rat × Rat)) (t : Rat × Rat),
    l.foldl (fun a b => (a.1 + b.1, a.2 + b.2)) t =
      (t.1 + (l.map Prod.fst).sum, t.2 + (l.map Prod.snd).sum) := by
  intro l
  induction l with
  | nil => intro t; simp
  | cons b rest ih =>
    intro t
    rw [List.foldl_cons, ih]
    simp [add_assoc]

theorem medianLoop_spec (mid : Rat) :
    ∀ (l : List WageTuple) (acc : Rat), l ≠ [] →
      mid ≤ acc + (l.map (fun w => w.weight)).sum →
      ∃ k, ∃ hk : k < l.length,
        medianLoop mid l acc = some (l.get ⟨k, hk⟩).wage ∧
        mid ≤ acc + prefixWeight l (k + 1) ∧
        ∀ j, j < k → acc + prefixWeight l (j + 1) < mid := by
  intro l
  induction l with
  | nil => intro acc h; exact absurd rfl h
  | cons w rest ih =>
    intro acc _ htot
    by_cases hc : mid ≤ acc + w.weight
    · refine ⟨0, by simp, ?_, ?_, ?_⟩
      · simp [medianLoop, hc]
      · simpa [prefixWeight] using hc
      · intro j hj
        exact absurd hj (Nat.not_lt_zero j)
    · have hrest : rest ≠ [] := by
        intro he
        subst he
        simp at htot
        exact hc htot
      have htot2 : mid ≤ (acc + w.weight) + (rest.map (fun w => w.weight)).sum := by
        simp only [List.map_cons, List.sum_cons] at htot
        rw [add_assoc]
        exact htot
      obtain ⟨k, hk, hval, hcross, hbefore⟩ := ih (acc + w.weight) hrest htot2
      refine ⟨k + 1, by simpa using Nat.succ_lt_succ hk, ?_, ?_, ?_⟩
      · simpa [medianLoop, hc] using hval
      · rw [prefixWeight, List.take_succ_cons]
        rw [prefixWeight] at hcross
        simp only [List.map_cons, List.sum_cons]
        rw [← add_assoc]
        exact hcross
      · intro j hj
        cases j with
        | zero =>
          simpa [prefixWeight] using not_le.mp hc
        | succ j2 =>
          have hb := hbefore j2 (by omega)
          rw [prefixWeight] at hb ⊢
          rw [List.take_succ_cons]
          simp only [List.map_cons, List.sum_cons]
          rw [← add_assoc]
          exact hb

theorem sortWages_perm (l : List WageTuple) : (sortWages l).Perm l :=
  List.perm_insertionSort _ l

theorem sortWages_sorted (l : List WageTuple) :
    List.Sorted (fun a b => a.wage ≤ b.wage) (sortWages l) := by
  haveI : IsTotal WageTuple (fun a b => a.wage ≤ b.wage) :=
    ⟨fun a b => le_total a.wage b.wage⟩
  haveI : IsTrans WageTuple (fun a b => a.wage ≤ b.wage) :=
    ⟨fun a b c h1 h2 => le_trans h1 h2⟩
  exact List.sorted_insertionSort _ l

theorem mapM_error_of_mem {α β : Type} (f : α → Except String β) :
    ∀ (l : List α), (∃ x ∈ l, ∃ e, f x = Except.error e) →
      ∃ e2, l.mapM f = Except.error e2 := by
  intro l
  induction l with
  | nil =>
    rintro ⟨x, hx, -⟩
    simp at hx
  | cons a rest ih =>
    rintro ⟨x, hx, e, he⟩
    rw [List.mapM_cons]
    rcases List.mem_cons.mp hx with h1 | h1
    · subst h1
      rw [he]
      exact ⟨e, rfl⟩
    · cases hfa : f a with
      | error e2 => exact ⟨e2, rfl⟩
      | ok b =>
        obtain ⟨e3, he3⟩ := ih ⟨x, h1, e, he⟩
        rw [he3]
        exact ⟨e3, rfl⟩

theorem parse_record_error_of_bad (row : RawRow)
    (hbad : row.unemp = none ∨ none ∈ row.wageotc) :
    ∃ e, parse_record row = Except.error e := by
  rcases hbad with h | h
  · cases hi : row.index with
    | none => exact ⟨intMsg, by simp [parse_record, hi]⟩
    | some i => exact ⟨floatMsg, by simp [parse_record, hi, h]⟩
  · have hw : ∃ e, parse_wage_otc row.wageotc = Except.error e := by
      obtain ⟨e, he⟩ :=
        mapM_error_of_mem (parseField floatMsg) row.wageotc ⟨none, h, floatMsg, rfl⟩
      refine ⟨e, ?_⟩
      unfold parse_wage_otc
      rw [he]
      rfl
    cases hi : row.index with
    | none => exact ⟨intMsg, by simp [parse_record, hi]⟩
    | some i =>
      cases hu : row.unemp with
      | none => exact ⟨floatMsg, by simp [parse_record, hi, hu]⟩
      | some u =>
        cases hwc : row.wageCount with
        | none => exact ⟨floatMsg, by simp [parse_record, hi, hu, hwc]⟩
        | some wc =>
          cases huc : row.unempCount with
          | none => exact ⟨floatMsg, by simp [parse_record, hi, hu, hwc, huc]⟩
          | some uc =>
            obtain ⟨e, he⟩ := hw
            exact ⟨e, by simp [parse_record, hi, hu, hwc, huc, he]⟩

/-- C9: an input row stream containing a row whose `unemp` cell does not
parse as a number, or whose `wageotc` cell contains a malformed pair, makes
`load_from_file` raise a parse error; no `Dataset` is returned. -/
theorem load_from_file_error_on_bad_row (rows : List RawRow) (row : RawRow)
    (hmem : row ∈ rows) (hbad : row.unemp = none ∨ none ∈ row.wageotc) :
    ∃ e, load_from_file rows = Except.error e := by
  obtain ⟨e, he⟩ := parse_record_error_of_bad row hbad
  obtain ⟨e2, he2⟩ := mapM_error_of_mem parse_record rows ⟨row, hmem, e, he⟩
  refine ⟨e2, ?_⟩
  unfold load_from_file
  rw [he2]
  rfl

/-- Witness for C9: a concrete stream with a non-numeric `unemp` cell in its
only row fails to load. -/
theorem load_from_file_error_on_bad_row_witness :
    (badRow ∈ [badRow] ∧ (badRow.unemp = none ∨ none ∈ badRow.wageotc)) ∧
    (∃ e, load_from_file [badRow] = Except.error e) :=
  ⟨⟨by simp, by simp [badRow]⟩,
    load_from_file_error_on_bad_row [badRow] badRow (by simp)
      (by simp [badRow])⟩

theorem get_wageotc_eq (ds : Dataset) (q : Query) (ws : List WageTuple)
    (h : ds.wagePool q = Except.ok ws) :
    ds.get_wageotc q =
      match medianLoop (((ws.map (fun w => w.weight)).sum) / 2) (sortWages ws) 0 with
      | some w => Except.ok w
      | none => Except.error ("Unable to get median wage.") := by
  unfold Dataset.get_wageotc
  rw [h]
  rfl

theorem get_wageotc_aux (ds : Dataset) (q : Query) (ws : List WageTuple)
    (hpool : ds.wagePool q = Except.ok ws) (hne : ws ≠ [])
    (hw : ∀ w ∈ ws, 0 ≤ w.weight) :
    ∃ k, ∃ hk : k < (sortWages ws).length,
      ds.get_wageotc q = Except.ok ((sortWages ws).get ⟨k, hk⟩).wage ∧
      ((ws.map (fun w => w.weight)).sum) / 2 ≤ prefixWeight (sortWages ws) (k + 1) ∧
      ∀ j, j < k →
        prefixWeight (sortWages ws) (j + 1) < ((ws.map (fun w => w.weight)).sum) / 2 := by
  have hperm := sortWages_perm ws
  have hsum : ((sortWages ws).map (fun w => w.weight)).sum =
      (ws.map (fun w => w.weight)).sum :=
    (hperm.map (fun w => w.weight)).sum_eq
  have hWnn : 0 ≤ (ws.map (fun w => w.weight)).sum := by
    apply List.sum_nonneg
    intro x hx
    rcases List.mem_map.mp hx with ⟨w, hwmem, rfl⟩
    exact hw w hwmem
  have hne2 : sortWages ws ≠ [] := by
    intro h0
    apply hne
    have hlen := hperm.length_eq
    rw [h0] at hlen
    exact List.eq_nil_of_length_eq_zero hlen.symm
  have hmid : ((ws.map (fun w => w.weight)).sum) / 2 ≤
      0 + ((sortWages ws).map (fun w => w.weight)).sum := by
    rw [hsum, zero_add]
    exact half_le_self hWnn
  obtain ⟨k, hk, hval, hcross, hbefore⟩ :=
    medianLoop_spec _ (sortWages ws) 0 hne2 hmid
  refine ⟨k, hk, ?_, ?_, ?_⟩
  · rw [get_wageotc_eq ds q ws hpool, hval]
  · simpa using hcross
  · intro j hj
    simpa using hbefore j hj

/-- C1 (amended): for every dataset and query whose flattened wage pool is
non-empty with non-negative weights and total weight W, `get_wageotc` sorts
the pool ascending by wage and returns the wage of the first observation at
which the cumulative weight reaches or exceeds W/2; and whenever W > 0 the
cumulative weight of all observations strictly before that one is < W/2.
(As stated, the claim drops the `W > 0` guard, which fails exactly when the
pool is non-empty with total weight zero; see the counterexample.) -/
theorem get_wageotc_first_crossing (ds : Dataset) (q : Query) (ws : List WageTuple)
    (hpool : ds.wagePool q = Except.ok ws) (hne : ws ≠ [])
    (hw : ∀ w ∈ ws, 0 ≤ w.weight) :
    (sortWages ws).Perm ws ∧
    List.Sorted (fun a b => a.wage ≤ b.wage) (sortWages ws) ∧
    ∃ k, ∃ hk : k < (sortWages ws).length,
      ds.get_wageotc q = Except.ok ((sortWages ws).get ⟨k, hk⟩).wage ∧
      ((ws.map (fun w => w.weight)).sum) / 2 ≤ prefixWeight (sortWages ws) (k + 1) ∧
      (∀ j, j < k →
        prefixWeight (sortWages ws) (j + 1) < ((ws.map (fun w => w.weight)).sum) / 2) ∧
      (0 < (ws.map (fun w => w.weight)).sum →
        prefixWeight (sortWages ws) k < ((ws.map (fun w => w.weight)).sum) / 2) := by
  obtain ⟨k, hk, hval, hcross, hbefore⟩ := get_wageotc_aux ds q ws hpool hne hw
  refine ⟨sortWages_perm ws, sortWages_sorted ws, k, hk, hval, hcross, hbefore, ?_⟩
  intro hpos
  cases k with
  | zero => simpa [prefixWeight] using half_pos hpos
  | succ k2 => exact hbefore k2 (Nat.lt_succ_self k2)

/-- Counterexample to C1 as stated: on the one-record dataset `dsZ`, whose
single wage observation has weight 0, the pool is non-empty with
non-negative weights and total weight W = 0; the returned observation is the
first of the sorted pool, and the cumulative weight of the observations
strictly before it is 0, which is not `< W/2 = 0`. -/
theorem get_wageotc_zero_weight_counterexample :
    dsZ.wagePool Query.empty = Except.ok [⟨5, 0⟩] ∧
    (∀ w ∈ [(⟨5, 0⟩ : WageTuple)], 0 ≤ w.weight) ∧
    sortWages [⟨5, 0⟩] = [⟨5, 0⟩] ∧
    dsZ.get_wageotc Query.empty = Except.ok 5 ∧
    ¬ (prefixWeight (sortWages [⟨5, 0⟩]) 0 <
        (([(⟨5, 0⟩ : WageTuple)].map (fun w => w.weight)).sum) / 2) := by
  refine ⟨by with_unfolding_all rfl, by decide, by with_unfolding_all rfl,
    by with_unfolding_all rfl, by simp [prefixWeight]⟩

/-- Witness for C1 (amended) at the spec's concrete scenario: the pool of the
`educ="college"` subpopulation of `dsABC`. -/
theorem get_wageotc_first_crossing_witness :
    (dsABC.wagePool qCollege = Except.ok [⟨10, 5⟩, ⟨20, 5⟩, ⟨12, 5⟩, ⟨22, 5⟩] ∧
      ([⟨10, 5⟩, ⟨20, 5⟩, ⟨12, 5⟩, ⟨22, 5⟩] : List WageTuple) ≠ [] ∧
      ∀ w ∈ ([⟨10, 5⟩, ⟨20, 5⟩, ⟨12, 5⟩, ⟨22, 5⟩] : List WageTuple), 0 ≤ w.weight) ∧
    ((sortWages [⟨10, 5⟩, ⟨20, 5⟩, ⟨12, 5⟩, ⟨22, 5⟩]).Perm
        [⟨10, 5⟩, ⟨20, 5⟩, ⟨12, 5⟩, ⟨22, 5⟩] ∧
      List.Sorted (fun a b => a.wage ≤ b.wage)
        (sortWages [⟨10, 5⟩, ⟨20, 5⟩, ⟨12, 5⟩, ⟨22, 5⟩]) ∧
      ∃ k, ∃ hk : k < (sortWages [⟨10, 5⟩, ⟨20, 5⟩, ⟨12, 5⟩, ⟨22, 5⟩]).length,
        dsABC.get_wageotc qCollege =
          Except.ok ((sortWages [⟨10, 5⟩, ⟨20, 5⟩, ⟨12, 5⟩, ⟨22, 5⟩]).get ⟨k, hk⟩).wage ∧
        ((([⟨10, 5⟩, ⟨20, 5⟩, ⟨12, 5⟩, ⟨22, 5⟩] : List WageTuple).map
            (fun w => w.weight)).sum) / 2 ≤
          prefixWeight (sortWages [⟨10, 5⟩, ⟨20, 5⟩, ⟨12, 5⟩, ⟨22, 5⟩]) (k + 1) ∧
        (∀ j, j < k →
          prefixWeight (sortWages [⟨10, 5⟩, ⟨20, 5⟩, ⟨12, 5⟩, ⟨22, 5⟩]) (j + 1) <
            ((([⟨10, 5⟩, ⟨20, 5⟩, ⟨12, 5⟩, ⟨22, 5⟩] : List WageTuple).map
                (fun w => w.weight)).sum) / 2) ∧
        (0 < (([⟨10, 5⟩, ⟨20, 5⟩, ⟨12, 5⟩, ⟨22, 5⟩] : List WageTuple).map
            (fun w => w.weight)).sum →
          prefixWeight (sortWages [⟨10, 5⟩, ⟨20, 5⟩, ⟨12, 5⟩, ⟨22, 5⟩]) k <
            ((([⟨10, 5⟩, ⟨20, 5⟩, ⟨12, 5⟩, ⟨22, 5⟩] : List WageTuple).map
                (fun w => w.weight)).sum) / 2)) :=
  ⟨⟨by with_unfolding_all rfl, by decide, by decide⟩,
    get_wageotc_first_crossing dsABC qCollege [⟨10, 5⟩, ⟨20, 5⟩, ⟨12, 5⟩, ⟨22, 5⟩]
      (by with_unfolding_all rfl) (by decide) (by decide)⟩

/-- C2: `get_wageotc` raises its `RuntimeError` on an empty pool; on a
non-empty pool with non-negative weights it returns normally, and when the
total weight is zero the returned wage is the smallest wage of the pool. -/
theorem get_wageotc_error_iff_empty_pool (ds : Dataset) (q : Query)
    (ws : List WageTuple) (hpool : ds.wagePool q = Except.ok ws)
    (hw : ∀ w ∈ ws, 0 ≤ w.weight) :
    (ws = [] → ds.get_wageotc q = Except.error ("Unable to get median wage.")) ∧
    (ws ≠ [] → ∃ r, ds.get_wageotc q = Except.ok r ∧
      ((ws.map (fun w => w.weight)).sum = 0 →
        r ∈ ws.map (fun w => w.wage) ∧ ∀ w ∈ ws, r ≤ w.wage)) := by
  constructor
  · rintro rfl
    rw [get_wageotc_eq ds q [] hpool]
    rfl
  · intro hne
    obtain ⟨k, hk, hval, hcross, hbefore⟩ := get_wageotc_aux ds q ws hpool hne hw
    refine ⟨((sortWages ws).get ⟨k, hk⟩).wage, hval, ?_⟩
    intro hW0
    have hperm := sortWages_perm ws
    have hk0 : k = 0 := by
      cases k with
      | zero => rfl
      | succ k2 =>
        exfalso
        have hb := hbefore k2 (Nat.lt_succ_self k2)
        rw [hW0] at hb
        have hnn : 0 ≤ prefixWeight (sortWages ws) (k2 + 1) := by
          apply List.sum_nonneg
          intro x hx
          rcases List.mem_map.mp hx with ⟨w, hwmem, rfl⟩
          exact hw w (hperm.mem_iff.mp ((List.take_sublist _ _).subset hwmem))
        rw [zero_div] at hb
        exact absurd hb (not_lt.mpr hnn)
    subst hk0
    have hmem0 : (sortWages ws).get ⟨0, hk⟩ ∈ sortWages ws := List.get_mem _ _ _
    constructor
    · exact List.mem_map_of_mem (fun w => w.wage) (hperm.mem_iff.mp hmem0)
    · intro w hwmem
      rcases List.mem_iff_get.mp (hperm.mem_iff.mpr hwmem) with ⟨j, rfl⟩
      rcases Nat.eq_zero_or_pos j.1 with hj0 | hjpos
      · have heq : (⟨0, hk⟩ : Fin (sortWages ws).length) = j := Fin.ext (by simpa using hj0.symm)
        rw [heq]
      · exact (sortWages_sorted ws).rel_get_of_lt (by simpa using hjpos)

/-- Witness for C2 at the `educ="college"` pool of `dsABC` (non-empty) and
implied behaviour on its branches. -/
theorem get_wageotc_error_iff_empty_pool_witness :
    (dsABC.wagePool qCollege = Except.ok [⟨10, 5⟩, ⟨20, 5⟩, ⟨12, 5⟩, ⟨22, 5⟩] ∧
      ∀ w ∈ ([⟨10, 5⟩, ⟨20, 5⟩, ⟨12, 5⟩, ⟨22, 5⟩] : List WageTuple), 0 ≤ w.weight) ∧
    ((([⟨10, 5⟩, ⟨20, 5⟩, ⟨12, 5⟩, ⟨22, 5⟩] : List WageTuple) = [] →
        dsABC.get_wageotc qCollege = Except.error ("Unable to get median wage.")) ∧
      (([⟨10, 5⟩, ⟨20, 5⟩, ⟨12, 5⟩, ⟨22, 5⟩] : List WageTuple) ≠ [] →
        ∃ r, dsABC.get_wageotc qCollege = Except.ok r ∧
          ((([⟨10, 5⟩, ⟨20, 5⟩, ⟨12, 5⟩, ⟨22, 5⟩] : List WageTuple).map
              (fun w => w.weight)).sum = 0 →
            r ∈ ([⟨10, 5⟩, ⟨20, 5⟩, ⟨12, 5⟩, ⟨22, 5⟩] : List WageTuple).map
              (fun w => w.wage) ∧
            ∀ w ∈ ([⟨10, 5⟩, ⟨20, 5⟩, ⟨12, 5⟩, ⟨22, 5⟩] : List WageTuple),
              r ≤ w.wage))) :=
  ⟨⟨by with_unfolding_all rfl, by decide⟩,
    get_wageotc_error_iff_empty_pool dsABC qCollege [⟨10, 5⟩, ⟨20, 5⟩, ⟨12, 5⟩, ⟨22, 5⟩]
      (by with_unfolding_all rfl) (by decide)⟩

theorem reduceMean_eq (l : List (Rat × Rat)) (hne : l ≠ []) :
    reduceMean l = if (l.map Prod.fst).sum = 0 then Except.error divZeroMsg
      else Except.ok ((l.map Prod.snd).sum / (l.map Prod.fst).sum) := by
  cases l with
  | nil => exact absurd rfl hne
  | cons t rest =>
    show (if (rest.foldl (fun a b => (a.1 + b.1, a.2 + b.2)) t).1 = 0 then
        Except.error divZeroMsg
      else Except.ok ((rest.foldl (fun a b => (a.1 + b.1, a.2 + b.2)) t).2 /
        (rest.foldl (fun a b => (a.1 + b.1, a.2 + b.2)) t).1)) = _
    rw [foldl_pair_add]
    simp

theorem get_unemp_eq (ds : Dataset) (q : Query) (l : List InputRecord)
    (hsub : ds.get_subpopulation q = Except.ok l) :
    ds.get_unemp q = reduceMean
      ((l.map (fun r => (r.unemp_count, r.unemp))).map (fun x => (x.1, x.1 * x.2))) := by
  unfold Dataset.get_unemp
  rw [hsub]
  rfl

/-- C3 (amended): `get_unemp` returns the weight-weighted mean
`Σ(weight × rate) / Σ(weight)` whenever the weights sum to a positive value;
on an empty subpopulation it fails with the `TypeError` that
`functools.reduce` raises on an empty sequence (not a division-by-zero
error), and on a non-empty subpopulation whose unemployment weights are all
zero it fails with the `ZeroDivisionError` of the final division. -/
theorem get_unemp_weighted_mean (ds : Dataset) (q : Query) (l : List InputRecord)
    (hsub : ds.get_subpopulation q = Except.ok l) :
    (l = [] → ds.get_unemp q = Except.error reduceEmptyMsg) ∧
    (0 < (l.map (fun r => r.unemp_count)).sum →
      ds.get_unemp q = Except.ok
        ((l.map (fun r => r.unemp_count * r.unemp)).sum /
          (l.map (fun r => r.unemp_count)).sum)) ∧
    (l ≠ [] → (∀ r ∈ l, r.unemp_count = 0) →
      ds.get_unemp q = Except.error divZeroMsg) := by
  have hfst : (((l.map (fun r => (r.unemp_count, r.unemp))).map
      (fun x => (x.1, x.1 * x.2))).map Prod.fst) = l.map (fun r => r.unemp_count) := by
    simp [List.map_map]
  have hsnd : (((l.map (fun r => (r.unemp_count, r.unemp))).map
      (fun x => (x.1, x.1 * x.2))).map Prod.snd) =
      l.map (fun r => r.unemp_count * r.unemp) := by
    simp [List.map_map]
  refine ⟨?_, ?_, ?_⟩
  · rintro rfl
    rw [get_unemp_eq ds q [] hsub]
    rfl
  · intro hpos
    have hlne : l ≠ [] := by
      rintro rfl
      simp at hpos
    rw [get_unemp_eq ds q l hsub, reduceMean_eq _ (by simp [hlne]), hfst, hsnd,
      if_neg hpos.ne']
  · intro hlne hzero
    have hS : (l.map (fun r => r.unemp_count)).sum = 0 := by
      apply List.sum_eq_zero
      intro x hx
      rcases List.mem_map.mp hx with ⟨r, hrmem, rfl⟩
      exact hzero r hrmem
    rw [get_unemp_eq ds q l hsub, reduceMean_eq _ (by simp [hlne]), hfst,
      if_pos hS]

/-- Counterexample to C3 as stated: on the empty dataset the subpopulation
of the unconstrained query is empty, and `get_unemp` fails with the
`TypeError` message of `functools.reduce` on an empty sequence --- not with a
division-by-zero error as the claim states. -/
theorem get_unemp_empty_error_kind_counterexample :
    ds0.get_subpopulation Query.empty = Except.ok [] ∧
    ds0.get_unemp Query.empty = Except.error reduceEmptyMsg ∧
    reduceEmptyMsg ≠ divZeroMsg :=
  ⟨by with_unfolding_all rfl, by with_unfolding_all rfl, by decide⟩

/-- Witness for C3 (amended) at the `educ="college"` subpopulation of
`dsABC`: weights 10 and 10, rates 5 and 8, mean 6.5. -/
theorem get_unemp_weighted_mean_witness :
    dsABC.get_subpopulation qCollege = Except.ok [rA, rB] ∧
    (([rA, rB] : List InputRecord) = [] →
        dsABC.get_unemp qCollege = Except.error reduceEmptyMsg) ∧
    (0 < (([rA, rB] : List InputRecord).map (fun r => r.unemp_count)).sum →
      dsABC.get_unemp qCollege = Except.ok
        ((([rA, rB] : List InputRecord).map (fun r => r.unemp_count * r.unemp)).sum /
          (([rA, rB] : List InputRecord).map (fun r => r.unemp_count)).sum)) ∧
    (([rA, rB] : List InputRecord) ≠ [] →
      (∀ r ∈ ([rA, rB] : List InputRecord), r.unemp_count = 0) →
      dsABC.get_unemp qCollege = Except.error divZeroMsg) :=
  ⟨by with_unfolding_all rfl,
    get_unemp_weighted_mean dsABC qCollege [rA, rB] (by with_unfolding_all rfl)⟩

/-- C10: on a query whose subpopulation is empty (all constrained values
being valid), `get_size` returns 0 without raising, while `get_wageotc` and
`get_unemp` both raise. -/
theorem get_size_empty_subpopulation (ds : Dataset) (q : Query)
    (h : ds.get_subpopulation q = Except.ok []) :
    ds.get_size q = Except.ok 0 ∧
    (∃ e, ds.get_wageotc q = Except.error e) ∧
    (∃ e, ds.get_unemp q = Except.error e) := by
  have hpool : ds.wagePool q = Except.ok [] := by
    unfold Dataset.wagePool
    rw [h]
    rfl
  refine ⟨?_, ⟨"Unable to get median wage.", ?_⟩, ⟨reduceEmptyMsg, ?_⟩⟩
  · unfold Dataset.get_size
    rw [h]
    rfl
  · rw [get_wageotc_eq ds q [] hpool]
    rfl
  · rw [get_unemp_eq ds q [] h]
    rfl

/-- Witness for C10: on `dsABC` the query `educ="high school", female=True`
names only present values yet selects no record. -/
theorem get_size_empty_subpopulation_witness :
    dsABC.get_subpopulation qHsFem = Except.ok [] ∧
    (dsABC.get_size qHsFem = Except.ok 0 ∧
      (∃ e, dsABC.get_wageotc qHsFem = Except.error e) ∧
      (∃ e, dsABC.get_unemp qHsFem = Except.error e)) :=
  ⟨by with_unfolding_all rfl,
    get_size_empty_subpopulation dsABC qHsFem (by with_unfolding_all rfl)⟩

theorem except_bind_eq_ok {ε α β : Type} {x : Except ε α} {f : α → Except ε β} {b : β}
    (h : x >>= f = Except.ok b) : ∃ a, x = Except.ok a ∧ f a = Except.ok b := by
  cases x with
  | error e =>
    rw [show ((Except.error e : Except ε α) >>= f) = Except.error e from rfl] at h
    exact Except.noConfusion h
  | ok a =>
    exact ⟨a, rfl, by rwa [show ((Except.ok a : Except ε α) >>= f) = f a from rfl] at h⟩

theorem filterDim_ok_not_offending (ds : Dataset) (q : Query) (dim : Dimension)
    (h : ds.offendingDim q dim = false) (acc : Finset Int) :
    ∃ acc2, ds.filterDim q acc dim = Except.ok acc2 := by
  unfold Dataset.offendingDim at h
  cases hv : q.dimVal dim with
  | none => exact ⟨acc, by simp [Dataset.filterDim, hv]⟩
  | some v =>
    rw [hv] at h
    simp at h
    exact ⟨ds.indexIds dim v ∩ acc, by simp [Dataset.filterDim, hv, h]⟩

theorem filterDim_error_offending (ds : Dataset) (q : Query) (dim : Dimension)
    (h : ds.offendingDim q dim = true) :
    ∃ v, q.dimVal dim = some v ∧ v ∉ ds.indexKeys dim ∧
      ∀ acc, ds.filterDim q acc dim =
        Except.error ("Cannot find the provided value: " ++ v.pyStr) := by
  unfold Dataset.offendingDim at h
  cases hv : q.dimVal dim with
  | none =>
    rw [hv] at h
    exact Bool.noConfusion h
  | some v =>
    rw [hv] at h
    simp at h
    refine ⟨v, rfl, h, ?_⟩
    intro acc
    simp [Dataset.filterDim, hv, h]

theorem foldlM_filter_first_offender (ds : Dataset) (q : Query) :
    ∀ (dims : List Dimension) (acc : Finset Int) (d : Dimension),
      dims.find? (ds.offendingDim q) = some d →
      ∃ v, q.dimVal d = some v ∧ v ∉ ds.indexKeys d ∧
        dims.foldlM (ds.filterDim q) acc =
          Except.error ("Cannot find the provided value: " ++ v.pyStr) := by
  intro dims
  induction dims with
  | nil =>
    intro acc d h
    simp at h
  | cons d0 rest ih =>
    intro acc d h
    cases h0 : ds.offendingDim q d0 with
    | true =>
      have hd : d0 = d := by
        rw [List.find?_cons_of_pos _ h0] at h
        exact Option.some.inj h
      subst hd
      obtain ⟨v, hv, hnk, herr⟩ := filterDim_error_offending ds q d0 h0
      refine ⟨v, hv, hnk, ?_⟩
      rw [List.foldlM_cons, herr acc]
      rfl
    | false =>
      have hfind : rest.find? (ds.offendingDim q) = some d := by
        rwa [List.find?_cons_of_neg _ (by simp [h0])] at h
      obtain ⟨acc2, hacc2⟩ := filterDim_ok_not_offending ds q d0 h0 acc
      obtain ⟨v, hv, hnk, herr⟩ := ih acc2 d hfind
      refine ⟨v, hv, hnk, ?_⟩
      rw [List.foldlM_cons, hacc2]
      show rest.foldlM (ds.filterDim q) acc2 = _
      exact herr

/-- C4: a query constraining some dimension to a value absent from that
dimension's inverted index makes `_get_subpopulation` raise a
`RuntimeError` whose message names an offending value; it never returns a
result instead. -/
theorem subpopulation_unknown_value_error (ds : Dataset) (q : Query)
    (h : ∃ dim v, q.dimVal dim = some v ∧ v ∉ ds.indexKeys dim) :
    ∃ dim v, q.dimVal dim = some v ∧ v ∉ ds.indexKeys dim ∧
      ds.get_subpopulation q =
        Except.error ("Cannot find the provided value: " ++ v.pyStr) := by
  obtain ⟨dim, v, hv, hnk⟩ := h
  have hoff : ds.offendingDim q dim = true := by
    unfold Dataset.offendingDim
    rw [hv]
    simp [hnk]
  have hmem : dim ∈ dimOrder := by cases dim <;> simp [dimOrder]
  have hsome : (dimOrder.find? (ds.offendingDim q)).isSome := by
    rw [List.find?_isSome]
    exact ⟨dim, hmem, hoff⟩
  obtain ⟨d, hd⟩ := Option.isSome_iff_exists.mp hsome
  obtain ⟨v2, hv2, hnk2, herr⟩ :=
    foldlM_filter_first_offender ds q dimOrder ds.allIds d hd
  refine ⟨d, v2, hv2, hnk2, ?_⟩
  unfold Dataset.get_subpopulation Dataset.subpopulationIds
  rw [herr]
  rfl

/-- Witness for C4: querying `educ="PhD"` against the three-record dataset
raises the lookup error naming `PhD`. -/
theorem subpopulation_unknown_value_error_witness :
    (∃ dim v, Query.dimVal qPhD dim = some v ∧ v ∉ dsABC.indexKeys dim) ∧
    (∃ dim v, Query.dimVal qPhD dim = some v ∧ v ∉ dsABC.indexKeys dim ∧
      dsABC.get_subpopulation qPhD =
        Except.error ("Cannot find the provided value: " ++ v.pyStr)) :=
  ⟨⟨Dimension.educ, Val.vs ("PhD"), rfl, by decide⟩,
    subpopulation_unknown_value_error dsABC qPhD
      ⟨Dimension.educ, Val.vs ("PhD"), rfl, by decide⟩⟩

theorem filterDim_subset (ds : Dataset) (q1 q2 : Query) (dim : Dimension)
    (hle : ∀ v, q1.dimVal dim = some v → q2.dimVal dim = some v)
    (acc1 acc2 : Finset Int) (hacc : acc2 ⊆ acc1) (b1 b2 : Finset Int)
    (h1 : ds.filterDim q1 acc1 dim = Except.ok b1)
    (h2 : ds.filterDim q2 acc2 dim = Except.ok b2) : b2 ⊆ b1 := by
  cases hv1 : q1.dimVal dim with
  | none =>
    simp only [Dataset.filterDim, hv1] at h1
    have hb1 : acc1 = b1 := Except.ok.inj h1
    subst hb1
    cases hv2 : q2.dimVal dim with
    | none =>
      simp only [Dataset.filterDim, hv2] at h2
      have hb2 : acc2 = b2 := Except.ok.inj h2
      subst hb2
      exact hacc
    | some v =>
      simp only [Dataset.filterDim, hv2] at h2
      by_cases hk : v ∈ ds.indexKeys dim
      · rw [if_pos hk] at h2
        have hb2 := Except.ok.inj h2
        subst hb2
        exact le_trans (Finset.inter_subset_right) hacc
      · rw [if_neg hk] at h2
        exact Except.noConfusion h2
  | some v =>
    have hv2 := hle v hv1
    simp only [Dataset.filterDim, hv1] at h1
    simp only [Dataset.filterDim, hv2] at h2
    by_cases hk : v ∈ ds.indexKeys dim
    · rw [if_pos hk] at h1 h2
      have hb1 := Except.ok.inj h1
      have hb2 := Except.ok.inj h2
      subst hb1
      subst hb2
      exact Finset.inter_subset_inter (le_refl _) hacc
    · rw [if_neg hk] at h1
      exact Except.noConfusion h1

theorem foldlM_filter_subset (ds : Dataset) (q1 q2 : Query)
    (hle : ∀ dim v, q1.dimVal dim = some v → q2.dimVal dim = some v) :
    ∀ (dims : List Dimension) (acc1 acc2 : Finset Int), acc2 ⊆ acc1 →
      ∀ s1 s2, dims.foldlM (ds.filterDim q1) acc1 = Except.ok s1 →
        dims.foldlM (ds.filterDim q2) acc2 = Except.ok s2 → s2 ⊆ s1 := by
  intro dims
  induction dims with
  | nil =>
    intro acc1 acc2 hacc s1 s2 h1 h2
    have hb1 : acc1 = s1 := Except.ok.inj h1
    have hb2 : acc2 = s2 := Except.ok.inj h2
    subst hb1
    subst hb2
    exact hacc
  | cons d0 rest ih =>
    intro acc1 acc2 hacc s1 s2 h1 h2
    rw [List.foldlM_cons] at h1 h2
    obtain ⟨a1, hfa1, hrest1⟩ := except_bind_eq_ok h1
    obtain ⟨a2, hfa2, hrest2⟩ := except_bind_eq_ok h2
    have hstep : a2 ⊆ a1 :=
      filterDim_subset ds q1 q2 d0 (hle d0) acc1 acc2 hacc a1 a2 hfa1 hfa2
    exact ih a1 a2 hstep s1 s2 hrest1 hrest2

theorem foldlM_filter_ok (ds : Dataset) (q : Query) :
    ∀ (dims : List Dimension), (∀ d ∈ dims, ds.offendingDim q d = false) →
      ∀ acc, ∃ s, dims.foldlM (ds.filterDim q) acc = Except.ok s := by
  intro dims
  induction dims with
  | nil => intro _ acc; exact ⟨acc, rfl⟩
  | cons d0 rest ih =>
    intro hall acc
    obtain ⟨a1, ha1⟩ := filterDim_ok_not_offending ds q d0 (hall d0 (by simp)) acc
    obtain ⟨s, hs⟩ := ih (fun d hd => hall d (by simp [hd])) a1
    refine ⟨s, ?_⟩
    rw [List.foldlM_cons, ha1]
    show rest.foldlM (ds.filterDim q) a1 = Except.ok s
    exact hs

/-- C7: if q2 carries every constraint of q1 (and possibly more), with all
of q2's constrained values present in the indexes, then both subpopulations
are returned and q2's is contained in q1's. -/
theorem subpopulation_antitone (ds : Dataset) (q1 q2 : Query)
    (hle : queryLEB q1 q2 = true) (hval : ds.queryValidB q2 = true) :
    ∃ l1 l2, ds.get_subpopulation q1 = Except.ok l1 ∧
      ds.get_subpopulation q2 = Except.ok l2 ∧ ∀ r, r ∈ l2 → r ∈ l1 := by
  have hmemdim : ∀ d : Dimension, d ∈ dimOrder := by
    intro d
    cases d <;> simp [dimOrder]
  have hle2 : ∀ dim v, q1.dimVal dim = some v → q2.dimVal dim = some v := by
    intro dim v hv
    have hall := List.all_eq_true.mp (by exact hle) dim (hmemdim dim)
    rw [hv] at hall
    exact of_decide_eq_true hall
  have hvalid2 : ∀ d : Dimension, ds.offendingDim q2 d = false := by
    intro d
    have hall := List.all_eq_true.mp (by exact hval) d (hmemdim d)
    simpa using hall
  have hvalid1 : ∀ d : Dimension, ds.offendingDim q1 d = false := by
    intro d
    unfold Dataset.offendingDim
    cases hv : q1.dimVal d with
    | none => rfl
    | some v =>
      have h2v := hle2 d v hv
      have h2 := hvalid2 d
      unfold Dataset.offendingDim at h2
      rw [h2v] at h2
      simp at h2 ⊢
      exact h2
  obtain ⟨s1, hs1⟩ := foldlM_filter_ok ds q1 dimOrder (fun d _ => hvalid1 d) ds.allIds
  obtain ⟨s2, hs2⟩ := foldlM_filter_ok ds q2 dimOrder (fun d _ => hvalid2 d) ds.allIds
  have hsub : s2 ⊆ s1 :=
    foldlM_filter_subset ds q1 q2 hle2 dimOrder ds.allIds ds.allIds
      (subset_refl _) s1 s2 hs1 hs2
  refine ⟨ds.recordsById.filterMap (fun p => if p.1 ∈ s1 then some p.2 else none),
    ds.recordsById.filterMap (fun p => if p.1 ∈ s2 then some p.2 else none),
    ?_, ?_, ?_⟩
  · unfold Dataset.get_subpopulation Dataset.subpopulationIds
    rw [hs1]
    rfl
  · unfold Dataset.get_subpopulation Dataset.subpopulationIds
    rw [hs2]
    rfl
  · intro r hr
    rcases List.mem_filterMap.mp hr with ⟨p, hp, hpe⟩
    apply List.mem_filterMap.mpr
    refine ⟨p, hp, ?_⟩
    by_cases hmem : p.1 ∈ s2
    · rw [if_pos hmem] at hpe
      rw [if_pos (hsub hmem)]
      exact hpe
    · rw [if_neg hmem] at hpe
      exact Option.noConfusion hpe

/-- Witness for C7: the unconstrained query versus `educ="college"` on the
three-record dataset. -/
theorem subpopulation_antitone_witness :
    (queryLEB Query.empty qCollege = true ∧ dsABC.queryValidB qCollege = true) ∧
    (∃ l1 l2, dsABC.get_subpopulation Query.empty = Except.ok l1 ∧
      dsABC.get_subpopulation qCollege = Except.ok l2 ∧ ∀ r, r ∈ l2 → r ∈ l1) :=
  ⟨⟨by decide, by decide⟩,
    subpopulation_antitone dsABC Query.empty qCollege (by decide) (by decide)⟩

theorem valuesById_eq_nil_iff (ds : Dataset) : ds.valuesById = [] ↔ ds.records = [] := by
  unfold Dataset.valuesById Dataset.recordsById
  constructor
  · intro h
    by_contra hne
    have hpd : pyDict (ds.records.map (fun r => (r.index, r))) ≠ [] :=
      pyDict_ne_nil _ (by simpa using hne)
    apply hpd
    simpa using h
  · intro h
    rw [h]
    rfl

theorem listMax_spec (l : List Rat) :
    (listMax l = Except.error ("max() arg is an empty sequence") ↔ l = []) ∧
    (l ≠ [] → ∃ m, listMax l = Except.ok m ∧ m ∈ l ∧ ∀ x ∈ l, x ≤ m) := by
  constructor
  · constructor
    · intro h
      cases l with
      | nil => rfl
      | cons x xs => exact Except.noConfusion h
    · rintro rfl
      rfl
  · intro hne
    cases l with
    | nil => exact absurd rfl hne
    | cons x xs =>
      obtain ⟨hm, hb⟩ := foldl_max_spec xs x
      exact ⟨xs.foldl max x, rfl, hm, hb⟩

/-- C5 (amended): `get_max_unemployment` fails exactly on a dataset with
zero records and otherwise returns the maximum unemployment rate over the
stored records; `get_max_wage` fails exactly when the flattened
wage-observation pool over the stored records is empty --- which can happen
on a dataset with records when every record's observation list is empty ---
and otherwise returns the maximum wage.  Neither consults a query. -/
theorem maxima_spec (ds : Dataset) :
    (ds.get_max_unemployment = Except.error ("max() arg is an empty sequence") ↔
      ds.records = []) ∧
    (ds.get_max_wage = Except.error ("max() arg is an empty sequence") ↔
      (ds.valuesById.map (fun r => r.wageotc)).flatten = []) ∧
    (ds.records ≠ [] → ∃ u, ds.get_max_unemployment = Except.ok u ∧
      u ∈ ds.valuesById.map (fun r => r.unemp) ∧
      ∀ x ∈ ds.valuesById.map (fun r => r.unemp), x ≤ u) ∧
    ((ds.valuesById.map (fun r => r.wageotc)).flatten ≠ [] → ∃ w,
      ds.get_max_wage = Except.ok w ∧
      w ∈ ((ds.valuesById.map (fun r => r.wageotc)).flatten).map (fun t => t.wage) ∧
      ∀ x ∈ ((ds.valuesById.map (fun r => r.wageotc)).flatten).map (fun t => t.wage),
        x ≤ w) := by
  unfold Dataset.get_max_unemployment Dataset.get_max_wage
  refine ⟨?_, ?_, ?_, ?_⟩
  · exact Iff.trans (listMax_spec (ds.valuesById.map (fun r => r.unemp))).1
      (Iff.trans List.map_eq_nil_iff (valuesById_eq_nil_iff ds))
  · exact Iff.trans
      (listMax_spec (((ds.valuesById.map (fun r => r.wageotc)).flatten).map
        (fun t => t.wage))).1
      List.map_eq_nil_iff
  · intro hne
    exact (listMax_spec (ds.valuesById.map (fun r => r.unemp))).2
      (by
        rw [Ne, List.map_eq_nil_iff, valuesById_eq_nil_iff ds]
        exact hne)
  · intro hne
    exact (listMax_spec (((ds.valuesById.map (fun r => r.wageotc)).flatten).map
      (fun t => t.wage))).2 (by rwa [Ne, List.map_eq_nil_iff])

/-- Counterexample to C5 as stated: `dsNW` has one record, so it is not a
zero-record dataset, yet `get_max_wage` raises because the record's
wage-observation list is empty, while `get_max_unemployment` succeeds. -/
theorem get_max_wage_nonempty_failure_counterexample :
    dsNW.records ≠ [] ∧
    dsNW.get_max_wage = Except.error ("max() arg is an empty sequence") ∧
    dsNW.get_max_unemployment = Except.ok 5 :=
  ⟨by decide, by with_unfolding_all rfl, by with_unfolding_all rfl⟩

/-- Witness for C5 (amended) at the three-record dataset: both maxima
succeed because there is a record and a non-empty wage pool. -/
theorem maxima_spec_witness :
    (dsABC.records ≠ [] ∧
      (dsABC.valuesById.map (fun r => r.wageotc)).flatten ≠ []) ∧
    ((∃ u, dsABC.get_max_unemployment = Except.ok u ∧
        u ∈ dsABC.valuesById.map (fun r => r.unemp) ∧
        ∀ x ∈ dsABC.valuesById.map (fun r => r.unemp), x ≤ u) ∧
      (∃ w, dsABC.get_max_wage = Except.ok w ∧
        w ∈ ((dsABC.valuesById.map (fun r => r.wageotc)).flatten).map
          (fun t => t.wage) ∧
        ∀ x ∈ ((dsABC.valuesById.map (fun r => r.wageotc)).flatten).map
          (fun t => t.wage), x ≤ w)) :=
  ⟨⟨by decide, by with_unfolding_all decide⟩,
    ⟨(maxima_spec dsABC).2.2.1 (by decide),
      (maxima_spec dsABC).2.2.2 (by with_unfolding_all decide)⟩⟩

/-- C8: for every dataset and dimension, `getVals` is strictly ascending
(hence duplicate-free) in the value order --- strings lexicographic, booleans
with `false < true` --- and contains exactly the values observed for that
dimension across all records. -/
theorem getVals_sorted_complete (ds : Dataset) (dim : Dimension) :
    List.Sorted (fun a b => a < b) (ds.getVals dim) ∧
    (ds.getVals dim).Nodup ∧
    (∀ v, v ∈ ds.getVals dim ↔ ∃ r ∈ ds.records, r.dimVal dim = v) ∧
    (∀ a b : String, (Val.vs a ≤ Val.vs b ↔ a ≤ b)) ∧
    Val.vb false < Val.vb true := by
  refine ⟨Finset.sort_sorted_lt _, Finset.sort_nodup _ _, ?_, ?_, by decide⟩
  · intro v
    unfold Dataset.getVals Dataset.indexKeys
    rw [Finset.mem_sort, List.mem_toFinset, List.mem_map]
  · intro a b
    exact Sum.Lex.inr_le_inr_iff

theorem recordsById_eq_of_nodup (ds : Dataset)
    (h : (ds.records.map (fun r => r.index)).Nodup) :
    ds.recordsById = ds.records.map (fun r => (r.index, r)) := by
  unfold Dataset.recordsById
  apply pyDict_of_nodup
  rw [List.map_map]
  simpa using h

theorem allIds_eq_of_nodup (ds : Dataset)
    (h : (ds.records.map (fun r => r.index)).Nodup) :
    ds.allIds = (ds.records.map (fun r => r.index)).toFinset := by
  unfold Dataset.allIds
  rw [recordsById_eq_of_nodup ds h, List.map_map]
  rfl

theorem filterMap_pair_mem (s : Finset Int) :
    ∀ l : List InputRecord,
      l.filterMap ((fun p : Int × InputRecord => if p.1 ∈ s then some p.2 else none) ∘
        (fun r => (r.index, r))) =
      l.filter (fun r => decide (r.index ∈ s)) := by
  intro l
  induction l with
  | nil => rfl
  | cons a rest ih =>
    by_cases h : a.index ∈ s <;>
      simp [List.filterMap_cons, List.filter_cons, h, ih, Function.comp]

theorem get_subpopulation_eq_filter (ds : Dataset) (q : Query) (s : Finset Int)
    (hids : ds.subpopulationIds q = Except.ok s)
    (hnd : (ds.records.map (fun r => r.index)).Nodup) :
    ds.get_subpopulation q =
      Except.ok (ds.records.filter (fun r => decide (r.index ∈ s))) := by
  unfold Dataset.get_subpopulation
  rw [hids, recordsById_eq_of_nodup ds hnd]
  show Except.ok ((ds.records.map (fun r => (r.index, r))).filterMap
      (fun p => if p.1 ∈ s then some p.2 else none)) =
    Except.ok (ds.records.filter (fun r => decide (r.index ∈ s)))
  rw [List.filterMap_map]
  exact congrArg Except.ok (filterMap_pair_mem s ds.records)

theorem foldlM_filter_pass (ds : Dataset) (q : Query) :
    ∀ (dims : List Dimension), (∀ d ∈ dims, q.dimVal d = none) →
      ∀ acc, dims.foldlM (ds.filterDim q) acc = Except.ok acc := by
  intro dims
  induction dims with
  | nil => intro _ acc; rfl
  | cons d0 rest ih =>
    intro hall acc
    rw [List.foldlM_cons]
    have hstep : ds.filterDim q acc d0 = Except.ok acc := by
      simp [Dataset.filterDim, hall d0 (by simp)]
    rw [hstep]
    show rest.foldlM (ds.filterDim q) acc = Except.ok acc
    exact ih (fun d hd => hall d (by simp [hd])) acc

theorem foldlM_filter_single (ds : Dataset) (q : Query) (dim : Dimension) (v : Val)
    (hq : q.dimVal dim = some v) (hother : ∀ d, d ≠ dim → q.dimVal d = none)
    (hk : v ∈ ds.indexKeys dim) :
    ∀ (dims : List Dimension), dims.Nodup → dim ∈ dims →
      ∀ acc, dims.foldlM (ds.filterDim q) acc =
        Except.ok (ds.indexIds dim v ∩ acc) := by
  intro dims
  induction dims with
  | nil =>
    intro _ hmem
    simp at hmem
  | cons d0 rest ih =>
    intro hnd hmem acc
    rw [List.foldlM_cons]
    by_cases hd : d0 = dim
    · subst hd
      have hstep : ds.filterDim q acc d0 = Except.ok (ds.indexIds d0 v ∩ acc) := by
        simp [Dataset.filterDim, hq, hk]
      rw [hstep]
      show rest.foldlM (ds.filterDim q) _ = _
      apply foldlM_filter_pass
      intro d hdmem
      apply hother
      intro hcontra
      subst hcontra
      exact (List.nodup_cons.mp hnd).1 hdmem
    · have hstep : ds.filterDim q acc d0 = Except.ok acc := by
        simp [Dataset.filterDim, hother d0 hd]
      rw [hstep]
      show rest.foldlM (ds.filterDim q) acc = _
      apply ih (List.nodup_cons.mp hnd).2
      rcases List.mem_cons.mp hmem with h | h
      · exact absurd h.symm hd
      · exact h

theorem single_dimVal (ds : Dataset) (dim : Dimension) (v : Val)
    (hk : v ∈ ds.indexKeys dim) :
    (Query.single dim v).dimVal dim = some v ∧
    ∀ d, d ≠ dim → (Query.single dim v).dimVal d = none := by
  rcases List.mem_map.mp (List.mem_toFinset.mp hk) with ⟨r, hr, rfl⟩
  cases dim <;> refine ⟨rfl, ?_⟩ <;> intro d hd <;> cases d <;>
    first
      | rfl
      | exact absurd rfl hd

theorem mem_indexIds_iff (ds : Dataset) (dim : Dimension) (v : Val)
    (r : InputRecord) (hr : r ∈ ds.records)
    (hnd : (ds.records.map (fun r => r.index)).Nodup) :
    r.index ∈ ds.indexIds dim v ↔ r.dimVal dim = v := by
  unfold Dataset.indexIds
  rw [List.mem_toFinset, List.mem_map]
  constructor
  · rintro ⟨r2, hr2, he⟩
    have hr2mem : r2 ∈ ds.records := List.mem_of_mem_filter hr2
    have hrr : r2 = r := List.inj_on_of_nodup_map hnd hr2mem hr he
    subst hrr
    exact of_decide_eq_true (List.mem_filter.mp hr2).2
  · intro hv
    exact ⟨r, List.mem_filter.mpr ⟨hr, decide_eq_true hv⟩, rfl⟩

theorem indexIds_inter_allIds (ds : Dataset) (dim : Dimension) (v : Val)
    (hnd : (ds.records.map (fun r => r.index)).Nodup) :
    ds.indexIds dim v ∩ ds.allIds = ds.indexIds dim v := by
  apply Finset.inter_eq_left.mpr
  intro i hi
  unfold Dataset.indexIds at hi
  rcases List.mem_map.mp (List.mem_toFinset.mp hi) with ⟨r, hrf, rfl⟩
  rw [allIds_eq_of_nodup ds hnd, List.mem_toFinset]
  exact List.mem_map_of_mem _ (List.mem_of_mem_filter hrf)

theorem get_size_single (ds : Dataset) (dim : Dimension) (v : Val)
    (hnd : (ds.records.map (fun r => r.index)).Nodup)
    (hk : v ∈ ds.indexKeys dim) :
    ds.get_size (Query.single dim v) =
      Except.ok (((ds.records.filter (fun r => decide (r.dimVal dim = v))).map
        (fun r => r.wage_count)).sum) := by
  obtain ⟨hq, hother⟩ := single_dimVal ds dim v hk
  have hmemdim : dim ∈ dimOrder := by cases dim <;> simp [dimOrder]
  have hnddims : dimOrder.Nodup := by decide
  have hids : ds.subpopulationIds (Query.single dim v) =
      Except.ok (ds.indexIds dim v ∩ ds.allIds) := by
    unfold Dataset.subpopulationIds
    exact foldlM_filter_single ds (Query.single dim v) dim v hq hother hk
      dimOrder hnddims hmemdim ds.allIds
  rw [indexIds_inter_allIds ds dim v hnd] at hids
  have hsub := get_subpopulation_eq_filter ds (Query.single dim v) _ hids hnd
  unfold Dataset.get_size
  rw [hsub]
  have hf : ds.records.filter (fun r => decide (r.index ∈ ds.indexIds dim v)) =
      ds.records.filter (fun r => decide (r.dimVal dim = v)) := by
    apply List.filter_congr
    intro r hr
    exact decide_eq_decide.mpr (mem_indexIds_iff ds dim v r hr hnd)
  show Except.ok ((ds.records.filter
      (fun r => decide (r.index ∈ ds.indexIds dim v))).map
        (fun r => r.wage_count)).sum = _
  rw [hf]

theorem get_size_empty_query (ds : Dataset)
    (hnd : (ds.records.map (fun r => r.index)).Nodup) :
    ds.get_size Query.empty =
      Except.ok ((ds.records.map (fun r => r.wage_count)).sum) := by
  have hids : ds.subpopulationIds Query.empty = Except.ok ds.allIds := by
    unfold Dataset.subpopulationIds
    exact foldlM_filter_pass ds Query.empty dimOrder
      (fun d _ => by cases d <;> rfl) ds.allIds
  have hsub := get_subpopulation_eq_filter ds Query.empty ds.allIds hids hnd
  unfold Dataset.get_size
  rw [hsub]
  have hf : ds.records.filter (fun r => decide (r.index ∈ ds.allIds)) = ds.records := by
    rw [List.filter_eq_self]
    intro r hr
    apply decide_eq_true
    rw [allIds_eq_of_nodup ds hnd, List.mem_toFinset]
    exact List.mem_map_of_mem _ hr
  show Except.ok ((ds.records.filter
      (fun r => decide (r.index ∈ ds.allIds))).map (fun r => r.wage_count)).sum = _
  rw [hf]

theorem sum_indicator : ∀ (keys : List Val), keys.Nodup →
    ∀ (v0 : Val) (c : Rat), v0 ∈ keys →
      (keys.map (fun v => if v0 = v then c else 0)).sum = c := by
  intro keys
  induction keys with
  | nil =>
    intro _ v0 c h
    simp at h
  | cons k rest ih =>
    intro hnd v0 c hmem
    rcases List.mem_cons.mp hmem with rfl | hmem2
    · have hnotin := (List.nodup_cons.mp hnd).1
      have hz : (rest.map (fun v => if v0 = v then c else 0)).sum = 0 := by
        apply List.sum_eq_zero
        intro x hx
        rcases List.mem_map.mp hx with ⟨v, hv, rfl⟩
        rw [if_neg]
        intro hcontra
        exact hnotin (hcontra ▸ hv)
      simp only [List.map_cons, List.sum_cons]
      simp [hz]
    · have hne : v0 ≠ k := by
        intro hcontra
        subst hcontra
        exact (List.nodup_cons.mp hnd).1 hmem2
      simp only [List.map_cons, List.sum_cons, if_neg hne]
      rw [ih (List.nodup_cons.mp hnd).2 v0 c hmem2, zero_add]

theorem sum_filter_partition (dim : Dimension) :
    ∀ (records : List InputRecord) (keys : List Val), keys.Nodup →
      (∀ r ∈ records, r.dimVal dim ∈ keys) →
      (keys.map (fun v => ((records.filter
        (fun r => decide (r.dimVal dim = v))).map (fun r => r.wage_count)).sum)).sum =
      (records.map (fun r => r.wage_count)).sum := by
  intro records
  induction records with
  | nil =>
    intro keys _ _
    simp
  | cons r rest ih =>
    intro keys hnd hcov
    have hcovrest : ∀ r2 ∈ rest, r2.dimVal dim ∈ keys :=
      fun r2 h2 => hcov r2 (by simp [h2])
    have hsplit : ∀ v ∈ keys,
        (((r :: rest).filter (fun x => decide (x.dimVal dim = v))).map
          (fun x => x.wage_count)).sum =
        (if r.dimVal dim = v then r.wage_count else 0) +
          ((rest.filter (fun x => decide (x.dimVal dim = v))).map
            (fun x => x.wage_count)).sum := by
      intro v _
      by_cases hv : r.dimVal dim = v
      · simp [List.filter_cons, hv]
      · simp [List.filter_cons, hv]
    rw [List.map_congr_left hsplit, List.sum_map_add, ih keys hnd hcovrest,
      sum_indicator keys hnd (r.dimVal dim) r.wage_count (hcov r (by simp))]
    simp

theorem forall2_map_right {α β : Type} (P : α → β → Prop) (g : α → β) :
    ∀ l : List α, (∀ x ∈ l, P x (g x)) → List.Forall₂ P l (l.map g) := by
  intro l
  induction l with
  | nil => intro _; exact List.Forall₂.nil
  | cons a rest ih =>
    intro h
    exact List.Forall₂.cons (h a (by simp)) (ih (fun x hx => h x (by simp [hx])))

/-- C6: on a dataset with pairwise-distinct record ids, summing `get_size`
over the family of queries fixing one dimension to each of its observed
values in turn equals `get_size` of the unconstrained query. -/
theorem get_size_partition (ds : Dataset)
    (hnd : (ds.records.map (fun r => r.index)).Nodup) (dim : Dimension) :
    ∃ sizes : List Rat,
      List.Forall₂ (fun v s => ds.get_size (Query.single dim v) = Except.ok s)
        (ds.getVals dim) sizes ∧
      ds.get_size Query.empty = Except.ok sizes.sum := by
  refine ⟨(ds.getVals dim).map (fun v =>
    ((ds.records.filter (fun r => decide (r.dimVal dim = v))).map
      (fun r => r.wage_count)).sum), ?_, ?_⟩
  · apply forall2_map_right
    intro v hv
    exact get_size_single ds dim v hnd ((Finset.mem_sort _).mp hv)
  · rw [get_size_empty_query ds hnd]
    exact congrArg Except.ok (sum_filter_partition dim ds.records (ds.getVals dim)
      (Finset.sort_nodup _ _)
      (fun r hr => (Finset.mem_sort _).mpr (List.mem_toFinset.mpr
        (List.mem_map_of_mem _ hr)))).symm

/-- Witness for C6 at the three-record dataset and the education dimension:
20 + 10 = 30. -/
theorem get_size_partition_witness :
    (dsABC.records.map (fun r => r.index)).Nodup ∧
    (∃ sizes : List Rat,
      List.Forall₂
        (fun v s => dsABC.get_size (Query.single Dimension.educ v) = Except.ok s)
        (dsABC.getVals Dimension.educ) sizes ∧
      dsABC.get_size Query.empty = Except.ok sizes.sum) :=
  ⟨by decide, get_size_partition dsABC (by decide) Dimension.educ⟩
